import Mathlib

/-!
Verification of the audio-transcription relay and the interview
question-generation / answer-evaluation endpoints.

The development shallowly embeds `src/app.py`:

* the websocket route `audio` (its background ingest worker
  `receive_audio`, the upstream `request_generator`, the response drain
  loop and the `try/except/finally` shape around it) is modelled as pure
  functions over explicit event lists;
* the HTTP handlers `generate` and `evaluate` are modelled as pure
  functions of the parsed request body and the outcome of the single
  upstream model call, returning the HTTP status plus payload and a
  record of the upstream calls made.

Python strings handled character-wise are modelled as `List Char`;
opaque payloads (audio bytes, websocket text frames) as `String`.
-/

namespace App

/-! ## Data model of the upstream speech responses -/

/-- One entry of `result.alternatives`; `transcript` models
`alternative.transcript`. -/
structure SpeechAlt where
  transcript : String
  deriving DecidableEq

/-- One streaming recognition result: `result.alternatives` and
`result.is_final`. -/
structure SpeechResult where
  alternatives : List SpeechAlt
  is_final : Bool
  deriving DecidableEq

/-- One upstream response, carrying `response.results`. -/
structure SpeechResponse where
  results : List SpeechResult
  deriving DecidableEq

/-- Behaviour of the upstream streaming call as observed by the drain
loop: it yields a finite list of responses and then either ends
normally (`ok`) or raises (`failAfter`).  A call that raises before
yielding anything is `failAfter []`. -/
inductive Upstream where
  | ok (responses : List SpeechResponse)
  | failAfter (responses : List SpeechResponse)
  deriving DecidableEq

/-- The responses the drain loop can iterate before the stream ends or
raises. -/
def upResponses : Upstream → List SpeechResponse
  | .ok rs => rs
  | .failAfter rs => rs

/-- Whether iterating past the last yielded response raises. -/
def upRaises : Upstream → Bool
  | .ok _ => false
  | .failAfter _ => true

/-- State of the client websocket's send side: `sendOk n` tells whether
the `n`-th `ws.send` attempt of the session succeeds or raises
(raising models the client having disconnected). -/
structure Ws where
  sendOk : Nat → Bool

/-- Observable actions the route performs on the client websocket. -/
inductive RelayAct where
  | send (frame : String) (ok : Bool)
  | close
  deriving DecidableEq

/-- The error frame sent from the `except` clause of `audio`. -/
def errMsg : String := "[ERROR] Speech recognition error occurred."

/-- The frame the drain loop builds for one result: the transcript of the
top alternative prefixed by the finality tag.  (Defined via `head?` for
use in specifications; the drain loop itself pattern-matches like the
source's `result.alternatives[0]`.) -/
def topFrame (r : SpeechResult) : String :=
  (if r.is_final then "[FINAL]" else "[INTERIM]")
    ++ ((r.alternatives.head?.map SpeechAlt.transcript).getD "")

/-- Inner drain loop over one response's `results` (source lines 84-89).
`n` is the index of the next send attempt.  Returns the websocket
actions performed, the next send index, and whether an exception
occurred (an empty `alternatives` list makes `alternatives[0]` raise;
a failed `ws.send` raises). -/
def drainResults (ws : Ws) : Nat → List SpeechResult → List RelayAct × Nat × Bool
  | n, [] => ([], n, false)
  | n, r :: rs =>
    match r.alternatives with
    | [] => ([], n, true)
    | a :: _ =>
      let f := (if r.is_final then "[FINAL]" else "[INTERIM]") ++ a.transcript
      if ws.sendOk n then
        let rec0 := drainResults ws (n + 1) rs
        (RelayAct.send f true :: rec0.1, rec0.2.1, rec0.2.2)
      else
        ([RelayAct.send f false], n + 1, true)

/-- Outer drain loop over the stream of responses (source line 83). -/
def drainResponses (ws : Ws) : Nat → List SpeechResponse → List RelayAct × Nat × Bool
  | n, [] => ([], n, false)
  | n, resp :: rest =>
    let d := drainResults ws n resp.results
    if d.2.2 then (d.1, d.2.1, true)
    else
      let rest0 := drainResponses ws d.2.1 rest
      (d.1 ++ rest0.1, rest0.2.1, rest0.2.2)

/-- The body of the `try` block of `audio`: drain the upstream stream;
the exception flag also accounts for the stream raising after its last
yielded response. -/
def sessionCore (up : Upstream) (ws : Ws) : List RelayAct × Nat × Bool :=
  let d := drainResponses ws 0 (upResponses up)
  (d.1, d.2.1, d.2.2 || upRaises up)

/-- The websocket route `audio` (source lines 81-97): run the drain
loop; on any exception, attempt a single error send (its own failure is
swallowed by the inner bare `except`); in all cases, finish with
`ws.close()` from the `finally` block. -/
def audio (up : Upstream) (ws : Ws) : List RelayAct :=
  let c := sessionCore up ws
  if c.2.2 then
    c.1 ++ [RelayAct.send errMsg (ws.sendOk c.2.1), RelayAct.close]
  else
    c.1 ++ [RelayAct.close]

/-! ## Ingest task and upstream request production -/

/-- One observation of `ws.receive()` inside `receive_audio`: a data
payload, a `None` return (explicit close signal), or a
`ConnectionClosed` exception. -/
inductive RecvEvent where
  | data (payload : String)
  | closeSignal
  | connClosed
  deriving DecidableEq

/-- The ingest worker `receive_audio` (source lines 45-54), as the
sequence of values it puts on `audio_q`.  The result is `none` when the
event list runs out before a terminating event (the worker is still
blocked in `ws.receive()` and never enqueues the sentinel); otherwise
`some puts`, ending in the `none` sentinel enqueued after the loop
breaks. -/
def receive_audio : List RecvEvent → Option (List (Option String))
  | [] => none
  | .data payload :: rest => (receive_audio rest).map (fun puts => some payload :: puts)
  | .closeSignal :: _ => some [none]
  | .connClosed :: _ => some [none]

/-- One streaming request frame, `speech.StreamingRecognizeRequest`. -/
structure StreamingRecognizeRequest where
  audio_content : String
  deriving DecidableEq

/-- The generator `request_generator` (source lines 74-79): the requests
it yields given the sequence of queue values, stopping at the first
`none` sentinel.  (An exhausted list models the generator still blocked
in `audio_q.get()` with nothing further yielded.) -/
def request_generator : List (Option String) → List StreamingRecognizeRequest
  | [] => []
  | none :: _ => []
  | some chunk :: rest => ⟨chunk⟩ :: request_generator rest

/-! ## Relay lemmas -/

/-- The transcript frames the upstream responses describe, in emission
order. -/
def expectedFrames : List SpeechResponse → List String
  | [] => []
  | resp :: rest => resp.results.map topFrame ++ expectedFrames rest

lemma drainResults_all_ok (ws : Ws) (hws : ∀ n, ws.sendOk n = true) :
    ∀ (rs : List SpeechResult), (∀ r ∈ rs, r.alternatives ≠ []) → ∀ n,
      drainResults ws n rs
        = (rs.map (fun r => RelayAct.send (topFrame r) true), n + rs.length, false) := by
  intro rs
  induction rs with
  | nil => intro _ n; simp [drainResults]
  | cons r rs ih =>
    intro h n
    have hr := h r (List.mem_cons_self r rs)
    have hrest : ∀ x ∈ rs, x.alternatives ≠ [] :=
      fun x hx => h x (List.mem_cons_of_mem r hx)
    obtain ⟨a, as, halts⟩ : ∃ a as, r.alternatives = a :: as := by
      cases hv : r.alternatives with
      | nil => exact absurd hv hr
      | cons a as => exact ⟨a, as, rfl⟩
    have harith : n + 1 + rs.length = n + (rs.length + 1) := by omega
    have ht : (if r.is_final then "[FINAL]" else "[INTERIM]") ++ a.transcript
        = topFrame r := by
      simp [topFrame, halts]
    simp only [drainResults, halts, hws n, if_true, ih hrest (n + 1), List.map_cons,
      List.length_cons, harith, ht]

lemma drainResponses_all_ok (ws : Ws) (hws : ∀ n, ws.sendOk n = true) :
    ∀ (resps : List SpeechResponse),
      (∀ resp ∈ resps, ∀ r ∈ resp.results, r.alternatives ≠ []) → ∀ n,
      drainResponses ws n resps
        = ((expectedFrames resps).map (fun f => RelayAct.send f true),
           n + (expectedFrames resps).length, false) := by
  intro resps
  induction resps with
  | nil => intro _ n; simp [drainResponses, expectedFrames]
  | cons resp rest ih =>
    intro h n
    have h1 : ∀ r ∈ resp.results, r.alternatives ≠ [] :=
      h resp (List.mem_cons_self _ _)
    have h2 : ∀ x ∈ rest, ∀ r ∈ x.results, r.alternatives ≠ [] :=
      fun x hx => h x (List.mem_cons_of_mem _ hx)
    have harith : n + resp.results.length + (expectedFrames rest).length
        = n + ((resp.results.map topFrame).length + (expectedFrames rest).length) := by
      simp only [List.length_map]
      omega
    simp only [drainResponses, drainResults_all_ok ws hws resp.results h1 n,
      ih h2 (n + resp.results.length), expectedFrames, List.map_append,
      List.length_append, harith]
    simp [List.map_map, Function.comp]

lemma close_not_in_drainResults (ws : Ws) :
    ∀ (rs : List SpeechResult) (n : Nat), RelayAct.close ∉ (drainResults ws n rs).1 := by
  intro rs
  induction rs with
  | nil => intro n; simp [drainResults]
  | cons r rs ih =>
    intro n
    cases halts : r.alternatives with
    | nil => simp [drainResults, halts]
    | cons a as =>
      by_cases hs : ws.sendOk n
      · simp only [drainResults, halts, hs, if_true]
        simp [ih (n + 1)]
      · simp [drainResults, halts, hs]

lemma close_not_in_drainResponses (ws : Ws) :
    ∀ (resps : List SpeechResponse) (n : Nat),
      RelayAct.close ∉ (drainResponses ws n resps).1 := by
  intro resps
  induction resps with
  | nil => intro n; simp [drainResponses]
  | cons resp rest ih =>
    intro n
    by_cases hd : (drainResults ws n resp.results).2.2
    · simp [drainResponses, hd, close_not_in_drainResults ws resp.results n]
    · simp [drainResponses, hd, close_not_in_drainResults ws resp.results n,
        ih (drainResults ws n resp.results).2.1]

lemma final_ne_errMsg (t : String) : "[FINAL]" ++ t ≠ errMsg := by
  intro h
  have h2 : "[FINAL]".data ++ t.data
      = "[ERROR] Speech recognition error occurred.".data := congrArg String.data h
  simp [List.cons_eq_cons] at h2

lemma interim_ne_errMsg (t : String) : "[INTERIM]" ++ t ≠ errMsg := by
  intro h
  have h2 : "[INTERIM]".data ++ t.data
      = "[ERROR] Speech recognition error occurred.".data := congrArg String.data h
  simp [List.cons_eq_cons] at h2

lemma tagged_ne_errMsg (b : Bool) (t : String) :
    ((if b then "[FINAL]" else "[INTERIM]") ++ t) ≠ errMsg := by
  cases b
  · exact interim_ne_errMsg t
  · exact final_ne_errMsg t

lemma err_not_in_drainResults (ws : Ws) :
    ∀ (rs : List SpeechResult) (n : Nat) (ok : Bool),
      RelayAct.send errMsg ok ∉ (drainResults ws n rs).1 := by
  intro rs
  induction rs with
  | nil => intro n ok; simp [drainResults]
  | cons r rs ih =>
    intro n ok
    cases halts : r.alternatives with
    | nil => simp [drainResults, halts]
    | cons a as =>
      by_cases hs : ws.sendOk n
      · simp only [drainResults, halts, hs, if_true, List.mem_cons]
        rintro (hbad | hmem)
        · exact tagged_ne_errMsg r.is_final a.transcript (RelayAct.send.inj hbad).1.symm
        · exact ih (n + 1) ok hmem
      · simp only [drainResults, halts, hs, if_false, Bool.false_eq_true, List.mem_cons]
        rintro (hbad | hmem)
        · exact tagged_ne_errMsg r.is_final a.transcript (RelayAct.send.inj hbad).1.symm
        · simp at hmem

lemma err_not_in_drainResponses (ws : Ws) :
    ∀ (resps : List SpeechResponse) (n : Nat) (ok : Bool),
      RelayAct.send errMsg ok ∉ (drainResponses ws n resps).1 := by
  intro resps
  induction resps with
  | nil => intro n ok; simp [drainResponses]
  | cons resp rest ih =>
    intro n ok
    by_cases hd : (drainResults ws n resp.results).2.2
    · simp [drainResponses, hd, err_not_in_drainResults ws resp.results n ok]
    · simp only [drainResponses, hd, if_false, Bool.false_eq_true, List.mem_append]
      rintro (hm | hm)
      · exact err_not_in_drainResults ws resp.results n ok hm
      · exact ih (drainResults ws n resp.results).2.1 ok hm

/-! ## Claims about the transcript relay -/

/-- C1: for every session and every sequence of results emitted by the
upstream recognizer's response stream, the drain loop forwards to the
client one text frame per result in exactly the upstream emission order,
with no reordering or coalescing, and each frame carries the result's
top transcript alternative prefixed with the final tag if the result's
finality flag is set and the interim tag otherwise.  (Stated on sessions
where every result has a top alternative and the client channel stays
open, so the normal path runs to completion.) -/
theorem audio_forwards_in_emission_order (resps : List SpeechResponse) (ws : Ws)
    (hws : ∀ n, ws.sendOk n = true)
    (halts : ∀ resp ∈ resps, ∀ r ∈ resp.results, r.alternatives ≠ []) :
    audio (Upstream.ok resps) ws
      = (expectedFrames resps).map (fun f => RelayAct.send f true)
          ++ [RelayAct.close] := by
  simp [audio, sessionCore, upResponses, upRaises,
    drainResponses_all_ok ws hws resps halts 0]

theorem audio_forwards_in_emission_order_witness :
    audio (Upstream.ok [⟨[⟨[⟨"hi"⟩], true⟩, ⟨[⟨"um"⟩], false⟩]⟩, ⟨[⟨[⟨"hi um"⟩], true⟩]⟩])
        ⟨fun _ => true⟩
      = [RelayAct.send ("[FINAL]hi") true, RelayAct.send ("[INTERIM]um") true,
         RelayAct.send ("[FINAL]hi um") true, RelayAct.close] := by
  have h := audio_forwards_in_emission_order
    [⟨[⟨[⟨"hi"⟩], true⟩, ⟨[⟨"um"⟩], false⟩]⟩, ⟨[⟨[⟨"hi um"⟩], true⟩]⟩]
    ⟨fun _ => true⟩ (fun _ => rfl) (by decide)
  exact h.trans (by decide)

/-- C2: for every session, on every exit path — normal exhaustion of the
upstream response stream, client disconnect, or an exception from the
upstream call — the relay closes the client channel in a finalization
step, and that close happens exactly once per session (here: every
upstream behaviour and every client-channel behaviour produce a trace
with exactly one close action, as the final action). -/
theorem audio_closes_exactly_once (up : Upstream) (ws : Ws) :
    (audio up ws).count RelayAct.close = 1
    ∧ (audio up ws).getLast? = some RelayAct.close := by
  have hnot : RelayAct.close ∉ (sessionCore up ws).1 :=
    close_not_in_drainResponses ws (upResponses up) 0
  have hzero : (sessionCore up ws).1.count RelayAct.close = 0 :=
    List.count_eq_zero.mpr hnot
  by_cases hflag : (sessionCore up ws).2.2
  · constructor
    · simp [audio, hflag, List.count_append, hzero, List.count_cons]
    · have hsplit : (sessionCore up ws).1
          ++ [RelayAct.send errMsg (ws.sendOk (sessionCore up ws).2.1), RelayAct.close]
          = ((sessionCore up ws).1
              ++ [RelayAct.send errMsg (ws.sendOk (sessionCore up ws).2.1)])
            ++ [RelayAct.close] := by simp
      simp only [audio, hflag, if_true, hsplit, List.getLast?_concat]
  · constructor
    · simp [audio, hflag, List.count_append, hzero, List.count_cons]
    · simp only [audio, hflag, if_false, Bool.false_eq_true, List.getLast?_concat]

/-- C4: for every exception raised by the upstream
streaming-recognition call or the drain loop, the relay catches it and
sends the client a single error frame with the error prefix if the
channel is still open; any failure of that send is itself swallowed, and
the exception never propagates to the transport layer as an unhandled
fault (the trace still ends with the finalization close, and no error
frame occurs among the ordinary drain actions). -/
theorem audio_catches_and_reports_errors (up : Upstream) (ws : Ws)
    (hexc : (sessionCore up ws).2.2 = true) :
    audio up ws
      = (sessionCore up ws).1
          ++ [RelayAct.send errMsg (ws.sendOk (sessionCore up ws).2.1), RelayAct.close]
    ∧ ∀ ok, RelayAct.send errMsg ok ∉ (sessionCore up ws).1 := by
  constructor
  · simp [audio, hexc]
  · intro ok
    exact err_not_in_drainResponses ws (upResponses up) 0 ok

theorem audio_catches_and_reports_errors_witness :
    audio (Upstream.failAfter [⟨[⟨[⟨"hi"⟩], true⟩]⟩]) ⟨fun _ => true⟩
      = [RelayAct.send ("[FINAL]hi") true, RelayAct.send errMsg true, RelayAct.close] := by
  have h := audio_catches_and_reports_errors
    (Upstream.failAfter [⟨[⟨[⟨"hi"⟩], true⟩]⟩]) ⟨fun _ => true⟩ (by decide)
  exact h.1.trans (by decide)

/-- C3: for every session, the upstream request sequence emits the
enqueued audio chunks as recognition-request frames in exactly FIFO
arrival order and terminates exactly when it dequeues the end-of-stream
sentinel (entries past the sentinel are never consumed), which the
ingest task enqueues when the client channel is closed
(`ConnectionClosed`) or yields an explicit close signal (`None`), after
which the ingest task terminates. -/
theorem ingest_fifo_and_sentinel (chunks : List String) (t : RecvEvent)
    (qrest : List (Option String))
    (ht : t = RecvEvent.closeSignal ∨ t = RecvEvent.connClosed) :
    receive_audio (chunks.map RecvEvent.data ++ [t])
        = some (chunks.map some ++ [none])
    ∧ request_generator (chunks.map some ++ none :: qrest)
        = chunks.map StreamingRecognizeRequest.mk := by
  induction chunks with
  | nil =>
    rcases ht with ht | ht <;> subst ht <;> simp [receive_audio, request_generator]
  | cons c cs ih =>
    refine ⟨?_, ?_⟩
    · simp [receive_audio, ih.1]
    · simp [request_generator, ih.2]

theorem ingest_fifo_and_sentinel_witness :
    receive_audio [RecvEvent.data ("a"), RecvEvent.data ("b"), RecvEvent.closeSignal]
        = some [some ("a"), some ("b"), none]
    ∧ request_generator [some ("a"), some ("b"), none, some ("z")]
        = [⟨"a"⟩, ⟨"b"⟩] :=
  ingest_fifo_and_sentinel ["a", "b"] RecvEvent.closeSignal [some ("z")] (Or.inl rfl)

/-! ## Python string primitives, on `List Char` -/

/-- ASCII whitespace as recognized by Python's `str.strip()` and
`str.splitlines()` (the unicode-only whitespace code points are outside
the modelled alphabet). -/
def isPySpace (c : Char) : Bool :=
  c = ' ' || c = '\t' || c = '\n' || c = '\r' || c = '\x0b' || c = '\x0c'

/-- Python `str.strip()`. -/
def pyStrip (s : List Char) : List Char :=
  ((s.dropWhile isPySpace).reverse.dropWhile isPySpace).reverse

/-- Fuelled worker for `replaceAll`; each step consumes at least one
character, so `s.length` fuel always suffices (kept fuelled so that the
definition reduces in the kernel). -/
def replaceAllFuel (pat : List Char) : Nat → List Char → List Char
  | 0, s => s
  | _ + 1, [] => []
  | fuel + 1, c :: rest =>
    if pat ≠ [] ∧ pat.isPrefixOf (c :: rest) then
      replaceAllFuel pat fuel ((c :: rest).drop pat.length)
    else
      c :: replaceAllFuel pat fuel rest

/-- Python `s.replace(pat, "")`: remove every non-overlapping occurrence
of `pat`, scanning left to right. -/
def replaceAll (pat s : List Char) : List Char := replaceAllFuel pat s.length s

/-- Worker for `pySplitlines`, accumulating the current line reversed;
recognizes the line boundaries occurring in the modelled alphabet
(`\r\n`, `\n`, `\r`). -/
def splitlinesAux : List Char → List Char → List (List Char)
  | '\r' :: '\n' :: rest, acc => acc.reverse :: splitlinesAux rest []
  | '\n' :: rest, acc => acc.reverse :: splitlinesAux rest []
  | '\r' :: rest, acc => acc.reverse :: splitlinesAux rest []
  | c :: rest, acc => splitlinesAux rest (c :: acc)
  | [], acc => if acc = [] then [] else [acc.reverse]

/-- Python `str.splitlines()`. -/
def pySplitlines (s : List Char) : List (List Char) := splitlinesAux s []

/-- Python `s.split(c, 1)`: the part before the first occurrence of
`c`, and — when `c` occurs — the part after it. -/
def splitOnce (c : Char) : List Char → List Char × Option (List Char)
  | [] => ([], none)
  | x :: rest =>
    if x = c then ([], some rest)
    else
      let p := splitOnce c rest
      (x :: p.1, p.2)

/-- Python `s.find(c)`: index of the first occurrence, `-1` if absent. -/
def pyFindChar (c : Char) (s : List Char) : Int :=
  match s.findIdx? (fun x => x = c) with
  | some i => (i : Int)
  | none => -1

/-- Python `s.rfind(c)`: index of the last occurrence, `-1` if absent. -/
def pyRfindChar (c : Char) (s : List Char) : Int :=
  match s.reverse.findIdx? (fun x => x = c) with
  | some k => (s.length : Int) - 1 - (k : Int)
  | none => -1

/-- Resolve one Python slice endpoint: negative indices count from the
end, and both ends clamp to `[0, n]`. -/
def pySliceIdx (n : Nat) (i : Int) : Nat :=
  if i < 0 then (i + n).toNat else min i.toNat n

/-- Python `s[a:b]`. -/
def pySlice (s : List Char) (a b : Int) : List Char :=
  (s.take (pySliceIdx s.length b)).drop (pySliceIdx s.length a)

/-! ## Shared HTTP modelling -/

/-- Outcome of a Python expression that can raise: a value, or an
exception whose text is `str(e)`. -/
inductive PyResult (α : Type) where
  | ok (val : α)
  | exc (msg : List Char)

/-- An HTTP response: the status code and the JSON payload shape the
handler passed to `jsonify`. -/
structure HttpResponse (β : Type) where
  status : Nat
  body : β

/-! ## The generate endpoint -/

/-- Parsed request body of `generate` as the handler observes it: a JSON
object with an optional string field `job_description`, or a body whose
parsing / field access raises. -/
inductive GenBody where
  | dict (jobDescription? : Option (List Char))
  | raises (msg : List Char)

/-- Success/failure payloads of `generate`. -/
inductive GenRespBody where
  | questions (qs : List (List Char))
  | errorPayload (msg : List Char)

/-- Text of the generate prompt before the embedded job description. -/
def genPromptPre : List Char :=
  ("\n        You are an expert HR interviewer.\n        Generate exactly 4 interview questions:\n        - 2 general HR questions\n        - 2 job-specific questions based on the following job description.\n\n        Job Description:\n        ").toList

/-- Text of the generate prompt after the embedded job description. -/
def genPromptPost : List Char :=
  ("\n\n        Return only the questions in a numbered list format:\n        1. ...\n        2. ...\n        3. ...\n        4. ...\n        ").toList

/-- The prompt f-string of `generate` (source lines 107-121), embedding
the job description verbatim. -/
def genPrompt (jd : List Char) : List Char := genPromptPre ++ jd ++ genPromptPost

/-- One iteration of the parsing loop of `generate` (source lines
127-136): the stripped line is dropped if blank; a line whose first
character is a digit with a period among its first four characters has
everything through the first period removed and is stripped again; any
other line is kept as is. -/
def processLine (rawLine : List Char) : Option (List Char) :=
  match pyStrip rawLine with
  | [] => none
  | c :: rest =>
    let line := c :: rest
    if c.isDigit && (line.take 4).contains '.' then
      match (splitOnce '.' line).2 with
      | some after => some (pyStrip after)
      | none => some line
    else
      some line

/-- The question-list parsing of `generate` (source lines 124-136),
applied to the upstream response text. -/
def parseQuestions (text : List Char) : List (List Char) :=
  (pySplitlines (pyStrip text)).filterMap processLine

/-- The handler `generate` (source lines 101-141): a body whose parsing
raises is answered 500 by the outer `except`; otherwise the (possibly
missing) `job_description` defaults to the empty string, the prompt is
built and the upstream model is called once, and the parsed question
list is returned with the implicit 200 status.  The second component
records the prompts of the upstream calls made. -/
def generate (body : GenBody) (upstream : List Char → PyResult (List Char)) :
    HttpResponse GenRespBody × List (List Char) :=
  match body with
  | .raises msg => (⟨500, .errorPayload msg⟩, [])
  | .dict jd? =>
    let prompt := genPrompt (jd?.getD [])
    match upstream prompt with
    | .exc msg => (⟨500, .errorPayload msg⟩, [prompt])
    | .ok text => (⟨200, .questions (parseQuestions text)⟩, [prompt])

/-! ## The evaluate endpoint -/

/-- Parsed request body of `evaluate`: a JSON object with optional
string fields `question` and `answer`, or a body whose parsing / field
access raises. -/
inductive EvalBody where
  | dict (question? : Option (List Char)) (answer? : Option (List Char))
  | raises (msg : List Char)

/-- A JSON value universe for the result of `json.loads`. -/
inductive Json where
  | null
  | bool (b : Bool)
  | num (n : Int)
  | str (s : List Char)
  | arr (elems : List Json)
  | obj (members : List (List Char × Json))

/-- The `evaluation` payload: the parsed record, or the fallback record
carrying the raw text under the `raw_evaluation` field. -/
inductive EvalOutcome where
  | parsed (v : Json)
  | rawFallback (raw : List Char)

/-- Success/failure payloads of `evaluate`. -/
inductive EvalRespBody where
  | errorPayload (msg : List Char)
  | evaluation (out : EvalOutcome)

/-- The 400 payload text of `evaluate` (source line 153). -/
def missingMsg : List Char := ("Missing question or answer").toList

/-- The code-fence marker with the json language tag. -/
def fenceJson : List Char := ['\x60', '\x60', '\x60', 'j', 's', 'o', 'n']

/-- The bare code-fence marker. -/
def fenceBare : List Char := ['\x60', '\x60', '\x60']

/-- The cleaning step of `evaluate` (source line 203): strip the raw
text, then remove all json-tagged fences, then all bare fences. -/
def cleanedOf (raw : List Char) : List Char :=
  replaceAll fenceBare (replaceAll fenceJson (pyStrip raw))

/-- The extraction step of `evaluate` (source lines 203-204): slice the
cleaned text from `find` of the first opening brace through `rfind` of
the last closing brace, with Python slice semantics. -/
def evaluateExtract (raw : List Char) : List Char :=
  let cleaned := cleanedOf raw
  pySlice cleaned (pyFindChar '\x7b' cleaned) (pyRfindChar '\x7d' cleaned + 1)

/-- The handler `evaluate` (source lines 145-214): a body whose parsing
raises is answered 500 by the outer `except`; an empty or missing
`question` or `answer` is answered 400 before any upstream call;
otherwise the upstream model is called once and its text run through
extraction and `json.loads` (whose behaviour is the `loads` parameter),
a parse failure degrading to the raw-text fallback record under the
implicit 200 status.  The second component counts upstream calls. -/
def evaluate (body : EvalBody) (upstream : PyResult (List Char))
    (loads : List Char → Option Json) : HttpResponse EvalRespBody × Nat :=
  match body with
  | .raises msg => (⟨500, .errorPayload msg⟩, 0)
  | .dict q? a? =>
    let question := q?.getD []
    let answer := a?.getD []
    if question = [] ∨ answer = [] then
      (⟨400, .errorPayload missingMsg⟩, 0)
    else
      match upstream with
      | .exc msg => (⟨500, .errorPayload msg⟩, 1)
      | .ok rawText =>
        match loads (evaluateExtract rawText) with
        | some j => (⟨200, .evaluation (.parsed j)⟩, 1)
        | none => (⟨200, .evaluation (.rawFallback rawText)⟩, 1)

/-! ## Claims about the evaluate and generate endpoints -/

/-- C5: for every evaluate request whose parsed body has an empty or
missing `question` or an empty or missing `answer`, the handler returns
a 400 client-error response carrying an error payload and makes zero
calls to the upstream model. -/
theorem evaluate_validates_before_upstream (q? a? : Option (List Char))
    (upstream : PyResult (List Char)) (loads : List Char → Option Json)
    (h : q?.getD [] = [] ∨ a?.getD [] = []) :
    evaluate (EvalBody.dict q? a?) upstream loads
      = (⟨400, EvalRespBody.errorPayload missingMsg⟩, 0) := by
  simp only [evaluate]
  rw [if_pos h]

theorem evaluate_validates_before_upstream_witness :
    evaluate (EvalBody.dict none (some ['y'])) (PyResult.ok []) (fun _ => none)
      = (⟨400, EvalRespBody.errorPayload missingMsg⟩, 0) :=
  evaluate_validates_before_upstream none (some ['y']) (PyResult.ok [])
    (fun _ => none) (Or.inl rfl)

/-- C7: for every evaluate request (with non-empty inputs, so the
upstream call happens), if structured parsing of the extracted substring
fails for any reason, the handler still returns a success (200) response
whose evaluation record carries the original raw upstream text under the
distinct fallback field; the parse-failure path never fails the
operation as a whole. -/
theorem evaluate_parse_failure_fallback (q a rawText : List Char)
    (loads : List Char → Option Json)
    (hq : q ≠ []) (ha : a ≠ []) (hparse : loads (evaluateExtract rawText) = none) :
    evaluate (EvalBody.dict (some q) (some a)) (PyResult.ok rawText) loads
      = (⟨200, EvalRespBody.evaluation (EvalOutcome.rawFallback rawText)⟩, 1) := by
  have hcond : ¬((some q).getD [] = [] ∨ (some a).getD [] = []) := by
    simp [hq, ha]
  simp only [evaluate]
  rw [if_neg hcond, hparse]

theorem evaluate_parse_failure_fallback_witness :
    evaluate (EvalBody.dict (some ['x']) (some ['x'])) (PyResult.ok []) (fun _ => none)
      = (⟨200, EvalRespBody.evaluation (EvalOutcome.rawFallback [])⟩, 1) :=
  evaluate_parse_failure_fallback ['x'] ['x'] [] (fun _ => none)
    (by decide) (by decide) rfl

/-- C9: generate performs no input validation: for every request whose
body parses, including one lacking a `job_description` field or
supplying the empty string, the handler substitutes the empty string,
embeds it in the prompt, and makes exactly one upstream call with that
prompt; and generate has no 400 client-error path for any body at all,
in contrast to evaluate. -/
theorem generate_skips_validation (jd? : Option (List Char))
    (u : List Char → PyResult (List Char)) (body : GenBody)
    (u2 : List Char → PyResult (List Char)) :
    (generate (GenBody.dict jd?) u).2 = [genPrompt (jd?.getD [])]
    ∧ (generate body u2).1.status ≠ 400 := by
  constructor
  · cases hu : u (genPrompt (jd?.getD [])) <;> simp [generate, hu]
  · cases body with
    | raises msg => simp [generate]
    | dict jd2? => cases hu : u2 (genPrompt (jd2?.getD [])) <;> simp [generate, hu]

theorem generate_skips_validation_witness :
    (generate (GenBody.dict none) (fun _ => PyResult.ok [])).2 = [genPrompt []]
    ∧ (generate (GenBody.raises []) (fun _ => PyResult.ok [])).1.status ≠ 400 :=
  generate_skips_validation none (fun _ => PyResult.ok []) (GenBody.raises [])
    (fun _ => PyResult.ok [])

/-- C10: the 400 client-error response of evaluate arises exactly when
the body parsed as an object and yielded an empty (or missing)
`question` or `answer`; a body whose parsing or field access raises is
instead answered by the outer handler with a 500 server-error response
carrying the error payload. -/
theorem evaluate_unparseable_body_is_500 (q? a? : Option (List Char))
    (u : PyResult (List Char)) (loads : List Char → Option Json)
    (m : List Char) (u2 : PyResult (List Char)) (loads2 : List Char → Option Json) :
    ((evaluate (EvalBody.dict q? a?) u loads).1.status = 400
        ↔ (q?.getD [] = [] ∨ a?.getD [] = []))
    ∧ (evaluate (EvalBody.raises m) u2 loads2).1
        = ⟨500, EvalRespBody.errorPayload m⟩ := by
  refine ⟨⟨?_, ?_⟩, rfl⟩
  · intro h400
    by_contra hc
    simp only [evaluate] at h400
    rw [if_neg hc] at h400
    cases u with
    | exc msg => simp at h400
    | ok rawText =>
      cases hl : loads (evaluateExtract rawText) <;> simp [hl] at h400
  · intro h
    simp only [evaluate]
    rw [if_pos h]

theorem evaluate_unparseable_body_is_500_witness :
    (evaluate (EvalBody.dict none none) (PyResult.ok []) (fun _ => none)).1.status = 400
    ∧ (evaluate (EvalBody.raises ['m']) (PyResult.ok []) (fun _ => none)).1
        = ⟨500, EvalRespBody.errorPayload ['m']⟩ :=
  ⟨(evaluate_unparseable_body_is_500 none none (PyResult.ok []) (fun _ => none) ['m']
      (PyResult.ok []) (fun _ => none)).1.mpr (Or.inl rfl),
   (evaluate_unparseable_body_is_500 none none (PyResult.ok []) (fun _ => none) ['m']
      (PyResult.ok []) (fun _ => none)).2⟩

/-! ## The brace-substring extraction (C6) -/

lemma findIdx?_lt_length (p : Char → Bool) :
    ∀ (l : List Char) (i : Nat), l.findIdx? p = some i → i < l.length := by
  intro l
  induction l with
  | nil => intro i h; simp [List.findIdx?] at h
  | cons c rest ih =>
    intro i h
    rw [List.findIdx?_cons] at h
    by_cases hp : p c
    · simp [hp] at h
      simp only [List.length_cons]
      omega
    · simp [hp] at h
      match i, h with
      | (j + 1), h =>
        have := ih j (by simpa using h)
        simp only [List.length_cons]
        omega

/-- Index of the first occurrence of `c` in `s`, if any: the claim's
"first opening brace". -/
def firstIdxOf? (c : Char) (s : List Char) : Option Nat :=
  s.findIdx? (fun x => x = c)

/-- Index of the last occurrence of `c` in `s`, if any: the claim's
"last closing brace". -/
def lastIdxOf? (c : Char) (s : List Char) : Option Nat :=
  (s.reverse.findIdx? (fun x => x = c)).map (fun k => s.length - 1 - k)

/-- C6: for every raw upstream response text in evaluate, the extractor
removes the known code-fence markers (after stripping) and then attempts
structured parsing on exactly the substring of the cleaned text running
from the first opening brace through the last closing brace — the
inclusive character range `[i, j]`.  (Stated for cleaned texts where
both braces occur in that order, the case the claim describes.) -/
theorem evaluate_extracts_first_to_last_brace (raw : List Char) (i j : Nat)
    (hi : firstIdxOf? '\x7b' (cleanedOf raw) = some i)
    (hj : lastIdxOf? '\x7d' (cleanedOf raw) = some j)
    (hij : i ≤ j) :
    evaluateExtract raw = ((cleanedOf raw).drop i).take (j + 1 - i) := by
  have hi2 : (cleanedOf raw).findIdx? (fun x => x = '\x7b') = some i := hi
  have hj2 : ((cleanedOf raw).reverse.findIdx? (fun x => x = '\x7d')).map
      (fun k => (cleanedOf raw).length - 1 - k) = some j := hj
  obtain ⟨k, hk, hjk0⟩ := Option.map_eq_some'.mp hj2
  have hjk : j = (cleanedOf raw).length - 1 - k := hjk0.symm
  have hilt : i < (cleanedOf raw).length := findIdx?_lt_length _ (cleanedOf raw) i hi2
  have hklt : k < (cleanedOf raw).length := by
    have := findIdx?_lt_length _ (cleanedOf raw).reverse k hk
    simpa using this
  have ha : pySliceIdx (cleanedOf raw).length (i : Int) = i := by
    simp only [pySliceIdx]
    rw [if_neg (by omega)]
    omega
  have hb : pySliceIdx (cleanedOf raw).length
      (((cleanedOf raw).length : Int) - 1 - (k : Int) + 1) = j + 1 := by
    simp only [pySliceIdx]
    rw [if_neg (by omega)]
    omega
  simp only [evaluateExtract, pySlice, pyFindChar, pyRfindChar, hi2, hk, ha, hb]
  exact List.drop_take (j + 1) i (cleanedOf raw)

theorem evaluate_extracts_first_to_last_brace_witness :
    firstIdxOf? '\x7b' (cleanedOf ['\x7b', 'a', '\x7d']) = some 0
    ∧ lastIdxOf? '\x7d' (cleanedOf ['\x7b', 'a', '\x7d']) = some 2
    ∧ evaluateExtract ['\x7b', 'a', '\x7d'] = ['\x7b', 'a', '\x7d'] := by
  refine ⟨by decide, by decide, ?_⟩
  have h := evaluate_extracts_first_to_last_brace ['\x7b', 'a', '\x7d'] 0 2
    (by decide) (by decide) (by decide)
  exact h.trans (by decide)

/-! ## The generate line parsing (C8) -/

/-- Marker test, following the claim's words on the stripped line: the
first character is a digit and a period occurs among the first four
characters. -/
def isMarkerLine (line : List Char) : Bool :=
  (line.head?.elim false Char.isDigit) && (line.take 4).contains '.'

/-- Marker stripping, following the claim's words: drop everything
through the first period, then trim whitespace. -/
def stripMarker (line : List Char) : List Char :=
  pyStrip (line.drop (line.findIdx (fun x => x = '.') + 1))

/-- Line processing as the (amended) claim describes it: trim; drop
blank lines; strip the leading numeric marker from marker lines; keep
every other line. -/
def specProcessLine (rawLine : List Char) : Option (List Char) :=
  let line := pyStrip rawLine
  if line.isEmpty then none
  else if isMarkerLine line then some (stripMarker line)
  else some line

/-- The question list as the claim describes it. -/
def specQuestionList (text : List Char) : List (List Char) :=
  (pySplitlines (pyStrip text)).filterMap specProcessLine

lemma splitOnce_snd_of_mem (c : Char) :
    ∀ (l : List Char), c ∈ l →
      (splitOnce c l).2 = some (l.drop (l.findIdx (fun x => x = c) + 1)) := by
  intro l
  induction l with
  | nil => intro h; simp at h
  | cons x rest ih =>
    intro h
    by_cases hx : x = c
    · subst hx
      simp [splitOnce, List.findIdx_cons]
    · have hrest : c ∈ rest := by
        rcases List.mem_cons.mp h with h1 | h1
        · exact absurd h1.symm hx
        · exact h1
      have hp : (fun y => decide (y = c)) x = false := by
        simp [hx]
      simp only [splitOnce, if_neg hx, List.findIdx_cons, hp, cond_false, ih hrest]
      rw [List.drop_succ_cons]

lemma processLine_eq_spec (rawLine : List Char) :
    processLine rawLine = specProcessLine rawLine := by
  unfold processLine specProcessLine
  cases hline : pyStrip rawLine with
  | nil => simp
  | cons c rest =>
    have hcond : isMarkerLine (c :: rest)
        = (c.isDigit && ((c :: rest).take 4).contains '.') := by
      simp [isMarkerLine]
    by_cases hm : (c.isDigit && ((c :: rest).take 4).contains '.') = true
    · have hmem : '.' ∈ c :: rest := by
        have htake : '.' ∈ (c :: rest).take 4 :=
          List.elem_iff.mp (Bool.and_elim_right hm)
        exact List.mem_of_mem_take htake
      simp only [List.isEmpty_cons, hcond, hm, if_true,
        splitOnce_snd_of_mem '.' (c :: rest) hmem, stripMarker]
      simp
    · simp only [List.isEmpty_cons, hcond, hm]
      simp [hm]

lemma specProcessLine_empty_is_marker (line q : List Char)
    (h : specProcessLine line = some q) (hq : q = []) :
    isMarkerLine (pyStrip line) = true := by
  subst hq
  unfold specProcessLine at h
  by_cases he : (pyStrip line).isEmpty
  · simp [he] at h
  · by_cases hm : isMarkerLine (pyStrip line)
    · exact hm
    · simp only [he, hm, if_false, Bool.false_eq_true, Option.some.injEq] at h
      rw [h] at he
      simp at he

/-- C8 (amended): generate returns the list obtained by processing the
upstream text line by line — blank lines are dropped, lines beginning
with a digit with a period within the first few characters have the
leading numeric marker stripped, and every other non-blank line is kept
(whitespace-trimmed); entries are non-empty except that a marker line
with nothing after its period contributes an empty string. -/
theorem generate_line_processing (text line q : List Char)
    (jd? : Option (List Char)) (raw : List Char) :
    parseQuestions text = specQuestionList text
    ∧ (specProcessLine line = some q → q = [] → isMarkerLine (pyStrip line) = true)
    ∧ (generate (GenBody.dict jd?) (fun _ => PyResult.ok raw)).1
        = ⟨200, GenRespBody.questions (parseQuestions raw)⟩ := by
  refine ⟨?_, fun h hq => specProcessLine_empty_is_marker line q h hq, rfl⟩
  unfold parseQuestions specQuestionList
  rw [funext processLine_eq_spec]

theorem generate_line_processing_witness :
    parseQuestions (("a").toList) = specQuestionList (("a").toList)
    ∧ isMarkerLine (pyStrip (("1.").toList)) = true
    ∧ (generate (GenBody.dict none) (fun _ => PyResult.ok (("a").toList))).1
        = ⟨200, GenRespBody.questions (parseQuestions (("a").toList))⟩ := by
  have h := generate_line_processing (("a").toList) (("1.").toList) [] none (("a").toList)
  exact ⟨h.1, h.2.1 (by decide) rfl, h.2.2⟩

/-- C8 counterexample: the upstream line consisting of a bare numeric
marker is kept as the empty string, so the returned list does not
contain only non-empty strings. -/
theorem generate_keeps_empty_marker_entry :
    parseQuestions (("1. Tell me about yourself\n2.").toList)
      = [("Tell me about yourself").toList, []]
    ∧ ([] : List Char) ∈ parseQuestions (("1. Tell me about yourself\n2.").toList) := by
  exact ⟨by decide, by decide⟩

end App
